import Mathlib

/-!
Verification of the motion-tracking service (`motionTracking.ts`).

The service tracks detected objects across frames: it matches each frame's
detections against live tracks by Intersection-over-Union, maintains a bounded
position history per track, derives velocity and a moving/still classification,
and evicts stale tracks.

Numbers are embedded as rationals (`ℚ`); JavaScript's floating-point numbers
behave like exact arithmetic on all values relevant to the claims.  The one
JavaScript peculiarity that matters is `0 / 0 = NaN`; in `ℚ` it is `0`, and both
fail every strict comparison against the `0.3` matching threshold, so the
tracker's observable behaviour is unchanged.  Square roots (used only by the
moving/still classification) live in `ℝ`, so that predicate is `Prop`-valued.
-/

namespace MotionTracking

/-- Bounding box, given as center `(x, y)` plus `width`/`height`
(mirrors the `bbox` shape used throughout `motionTracking.ts`). -/

structure BBox where
  x : ℚ
  y : ℚ
  width : ℚ
  height : ℚ
  deriving DecidableEq, Repr

/-- The fields of `DetectedObject` (from `api.ts`) that the tracker reads.
The remaining fields (`id`, `label`, `confidence`, `colors`, …) are spread
through to the output unchanged and never inspected by the tracker, so the
embedding omits them. -/

structure DetectedObject where
  cls : String
  bbox : BBox
  deriving DecidableEq, Repr

/-- One entry of a track's position history: `{x, y, timestamp}`. -/

structure Pos where
  x : ℚ
  y : ℚ
  timestamp : ℚ
  deriving DecidableEq, Repr

/-- Track record `ObjectHistory`: one live track. `positions` is ordered oldest-first
(JavaScript pushes at the end and `shift`s from the front). -/

structure ObjectHistory where
  positions : List Pos
  cls : String
  lastSeen : ℚ
  trackingId : String
  deriving DecidableEq, Repr

/-- A 2-d velocity `{x, y}`. -/

structure Vec2 where
  x : ℚ
  y : ℚ
  deriving DecidableEq, Repr

-- Configuration constants of `motionTracking.ts`.

/-- Constant `MAX_HISTORY_LENGTH = 10`. -/

def MAX_HISTORY_LENGTH : ℕ := 10

/-- Constant `MOVEMENT_THRESHOLD = 5`. -/

def MOVEMENT_THRESHOLD : ℚ := 5

/-- Constant `MAX_FRAME_GAP = 3`. -/

def MAX_FRAME_GAP : ℚ := 3

/-- Constant `IOU_THRESHOLD = 0.3`. -/

def IOU_THRESHOLD : ℚ := 3 / 10

/-- The module-level mutable state: the insertion-ordered map
`objectHistory` (a JavaScript `Map` iterates in insertion order, so it is
embedded as a list), `nextTrackingId`, and `lastFrameTimestamp`. -/

structure TrackerState where
  objectHistory : List ObjectHistory
  nextTrackingId : ℕ
  lastFrameTimestamp : ℚ
  deriving DecidableEq, Repr

/-- The state at module load: empty map, `nextTrackingId = 1`,
`lastFrameTimestamp = 0`. -/

def initialState : TrackerState :=
  { objectHistory := [], nextTrackingId := 1, lastFrameTimestamp := 0 }

/-- Source function `calculateIoU`: convert both center+size boxes to corner form, return `0`
when they fail to overlap on either axis, else intersection over union.
(When both areas are zero the JavaScript division yields `NaN`; here `0/0 = 0`.
Both compare `false` against every positive threshold.) -/

def calculateIoU (box1 box2 : BBox) : ℚ :=
  let box1Left := box1.x - box1.width / 2
  let box1Right := box1.x + box1.width / 2
  let box1Top := box1.y - box1.height / 2
  let box1Bottom := box1.y + box1.height / 2
  let box2Left := box2.x - box2.width / 2
  let box2Right := box2.x + box2.width / 2
  let box2Top := box2.y - box2.height / 2
  let box2Bottom := box2.y + box2.height / 2
  let intersectLeft := max box1Left box2Left
  let intersectRight := min box1Right box2Right
  let intersectTop := max box1Top box2Top
  let intersectBottom := min box1Bottom box2Bottom
  if intersectRight < intersectLeft ∨ intersectBottom < intersectTop then 0
  else
    let intersectArea := (intersectRight - intersectLeft) * (intersectBottom - intersectTop)
    let box1Area := box1.width * box1.height
    let box2Area := box2.width * box2.height
    let unionArea := box1Area + box2Area - intersectArea
    intersectArea / unionArea

/-- The synthetic box `findBestMatch` builds for a candidate track: the track's
last known position with the *new* detection's width and height. -/

def syntheticBox (lastPos : Pos) (bbox : BBox) : BBox :=
  { x := lastPos.x, y := lastPos.y, width := bbox.width, height := bbox.height }

/-- The IoU `findBestMatch` scores a candidate `history` with (`0` when the
track has no stored position, which never happens in reachable states). -/

def candidateIoU (detection : DetectedObject) (history : ObjectHistory) : ℚ :=
  match history.positions.getLast? with
  | none => 0
  | some lastPos => calculateIoU detection.bbox (syntheticBox lastPos detection.bbox)

/-- One step of `findBestMatch`'s `forEach` body: skip a candidate of a
different class or one not seen within `MAX_FRAME_GAP`; otherwise keep it when
its IoU strictly exceeds the best so far. -/

def bestMatchStep (detection : DetectedObject) (timestamp : ℚ)
    (acc : ℚ × Option ObjectHistory) (history : ObjectHistory) :
    ℚ × Option ObjectHistory :=
  if history.cls ≠ detection.cls then acc
  else if timestamp - history.lastSeen > MAX_FRAME_GAP then acc
  else
    let iou := candidateIoU detection history
    if iou > acc.1 then (iou, some history) else acc

/-- Source function `findBestMatch`: fold over the live tracks in map (insertion) order,
starting from `bestIoU = IOU_THRESHOLD` and no match.
Note: the caller's `matchedHistoryIds` set is never consulted here, so a track
already matched earlier in the same frame remains a candidate. -/

def findBestMatch (hist : List ObjectHistory) (detection : DetectedObject)
    (timestamp : ℚ) : Option ObjectHistory :=
  (hist.foldl (bestMatchStep detection timestamp) (IOU_THRESHOLD, none)).2

/-- Source function `calculateVelocity`: difference of the last two positions divided by their
timestamp difference, where JavaScript's `timeDiff || 1` turns a zero
difference into `1` (a nonzero difference, including a negative one, is used
as-is).  Fewer than two positions give `{0, 0}`. -/

def calculateVelocity (positions : List Pos) : Vec2 :=
  if positions.length < 2 then { x := 0, y := 0 }
  else
    let current := positions.getD (positions.length - 1) ⟨0, 0, 0⟩
    let previous := positions.getD (positions.length - 2) ⟨0, 0, 0⟩
    let timeDiff :=
      if current.timestamp - previous.timestamp = 0 then 1
      else current.timestamp - previous.timestamp
    { x := (current.x - previous.x) / timeDiff
      y := (current.y - previous.y) / timeDiff }

/-- The last `n` elements of a list (JavaScript `slice(-n)` for `n > 0`). -/

def lastN (n : ℕ) (l : List α) : List α :=
  l.drop (l.length - n)

/-- Sum of Euclidean distances between consecutive positions, as accumulated
by the `for` loop in `isObjectMoving` (each step adds
`sqrt (dx² + dy²)`).  Lives in `ℝ` because of the square root. -/

noncomputable def totalDisplacement (recentPositions : List Pos) : ℝ :=
  (recentPositions.zip recentPositions.tail).foldl
    (fun acc pq =>
      acc + Real.sqrt ((((pq.2.x - pq.1.x) ^ 2 + (pq.2.y - pq.1.y) ^ 2 : ℚ) : ℝ)))
    0

/-- Source function `isObjectMoving`: `false` below 3 stored positions; otherwise the average
per-step displacement over the most recent 5 positions must strictly exceed
`MOVEMENT_THRESHOLD`.  `Prop`-valued because the displacement is a real. -/

def isObjectMoving (positions : List Pos) : Prop :=
  if positions.length < 3 then False
  else
    let recentPositions := lastN 5 positions
    totalDisplacement recentPositions / ((recentPositions.length : ℝ) - 1) >
      (MOVEMENT_THRESHOLD : ℝ)

/-- Source function `cleanupOldTracks`: delete every track whose `lastSeen` lags the current
timestamp by more than `MAX_FRAME_GAP`.  Deleting from a JavaScript `Map`
preserves the insertion order of the survivors, hence `filter`. -/

def cleanupOldTracks (hist : List ObjectHistory) (currentTimestamp : ℚ) :
    List ObjectHistory :=
  hist.filter (fun history => ¬ currentTimestamp - history.lastSeen > MAX_FRAME_GAP)

/-- One output record of `updateMotionTracking`: the input detection spread
together with the motion fields. -/

structure TrackedObject where
  det : DetectedObject
  isMoving : Prop
  velocity : Vec2
  trackingId : String
  framesTracked : ℕ
  lastSeen : ℚ

/-- The position history after appending the new detection's center and
trimming to `MAX_HISTORY_LENGTH` (JavaScript `push` then conditional `shift`). -/

def pushTrim (positions : List Pos) (p : Pos) : List Pos :=
  let pushed := positions ++ [p]
  if pushed.length > MAX_HISTORY_LENGTH then pushed.tail else pushed

/-- The matched track after absorbing a detection at `timestamp`. -/

def absorb (m : ObjectHistory) (detection : DetectedObject) (timestamp : ℚ) :
    ObjectHistory :=
  { m with
      positions := pushTrim m.positions
        { x := detection.bbox.x, y := detection.bbox.y, timestamp := timestamp }
      lastSeen := timestamp }

/-- The fresh track created for an unmatched detection. -/

def newTrack (detection : DetectedObject) (timestamp : ℚ) (trackingId : String) :
    ObjectHistory :=
  { positions := [{ x := detection.bbox.x, y := detection.bbox.y, timestamp := timestamp }]
    cls := detection.cls
    lastSeen := timestamp
    trackingId := trackingId }

/-- The `for (const detection of detections)` loop of `updateMotionTracking`:
threads the live-track list and `nextTrackingId` through the detections in
input order, emitting one `TrackedObject` per detection.
A matched track is mutated in place (same position in the map's iteration
order); a new track is appended at the end (fresh `Map` key).
(The loop also records matched ids in a `matchedHistoryIds` set, but that set
is never read, so it is not part of the state.) -/

def processDetections (timestamp : ℚ) :
    List DetectedObject → List ObjectHistory → ℕ →
    List TrackedObject × List ObjectHistory × ℕ
  | [], hist, nextId => ([], hist, nextId)
  | detection :: rest, hist, nextId =>
    match findBestMatch hist detection timestamp with
    | some m =>
        let m' := absorb m detection timestamp
        let hist' := hist.map (fun h => if h.trackingId = m.trackingId then m' else h)
        let out : TrackedObject :=
          { det := detection
            isMoving := isObjectMoving m'.positions
            velocity := calculateVelocity m'.positions
            trackingId := m.trackingId
            framesTracked := m'.positions.length
            lastSeen := timestamp }
        let r := processDetections timestamp rest hist' nextId
        (out :: r.1, r.2)
    | none =>
        let trackingId := "track-" ++ toString nextId
        let out : TrackedObject :=
          { det := detection
            isMoving := False
            velocity := { x := 0, y := 0 }
            trackingId := trackingId
            framesTracked := 1
            lastSeen := timestamp }
        let r := processDetections timestamp rest
          (hist ++ [newTrack detection timestamp trackingId]) (nextId + 1)
        (out :: r.1, r.2)

/-- Source function `updateMotionTracking(detections, frameNumber?)`: choose the effective
timestamp (`frameNumber ?? ++lastFrameTimestamp` — an omitted frame number
pre-increments the counter, an explicit one leaves it untouched), run the
eviction pass, then the matching pass. -/

def updateMotionTracking (st : TrackerState) (detections : List DetectedObject)
    (frameNumber : Option ℚ) : List TrackedObject × TrackerState :=
  let timestamp :=
    match frameNumber with
    | some t => t
    | none => st.lastFrameTimestamp + 1
  let newCounter :=
    match frameNumber with
    | some _ => st.lastFrameTimestamp
    | none => st.lastFrameTimestamp + 1
  let hist := cleanupOldTracks st.objectHistory timestamp
  let r := processDetections timestamp detections hist st.nextTrackingId
  (r.1,
   { objectHistory := r.2.1, nextTrackingId := r.2.2, lastFrameTimestamp := newCounter })

/-- Source function `resetMotionTracking`: clear the map, `nextTrackingId = 1`,
`lastFrameTimestamp = 0`. -/

def resetMotionTracking (_st : TrackerState) : TrackerState :=
  initialState

/-- Source function `getAllTrackedObjects`: the live tracks in insertion order. -/

def getAllTrackedObjects (st : TrackerState) : List ObjectHistory :=
  st.objectHistory

/-- A live track is a matching candidate for a detection when the classes are
equal and the track was seen within `MAX_FRAME_GAP` of the current timestamp. -/

def eligible (detection : DetectedObject) (timestamp : ℚ) (h : ObjectHistory) : Prop :=
  h.cls = detection.cls ∧ timestamp - h.lastSeen ≤ MAX_FRAME_GAP

instance (detection : DetectedObject) (timestamp : ℚ) (h : ObjectHistory) :
    Decidable (eligible detection timestamp h) :=
  decidable_of_iff (h.cls = detection.cls ∧ timestamp - h.lastSeen ≤ MAX_FRAME_GAP) Iff.rfl






/-- Modelled from the spec: `velocity = (Δposition) / (Δtimestamp)` over the two
most recent positions, "with `Δtimestamp` floored to a minimum of 1", i.e. the
divisor is `max Δtimestamp 1`; fewer than 2 positions give `{0, 0}`. -/

def velocitySpecFloored (positions : List Pos) : Vec2 :=
  if positions.length < 2 then { x := 0, y := 0 }
  else
    let current := positions.getD (positions.length - 1) ⟨0, 0, 0⟩
    let previous := positions.getD (positions.length - 2) ⟨0, 0, 0⟩
    let timeDiff := max (current.timestamp - previous.timestamp) 1
    { x := (current.x - previous.x) / timeDiff
      y := (current.y - previous.y) / timeDiff }



/-- Modelled from the spec: the sum of the Euclidean distances between each
consecutive pair of positions, written as direct recursion. -/

noncomputable def pairwiseDistSum : List Pos → ℝ
  | p :: q :: rest =>
      Real.sqrt ((((q.x - p.x) ^ 2 + (q.y - p.y) ^ 2 : ℚ) : ℝ)) + pairwiseDistSum (q :: rest)
  | _ => 0


/-- The effective timestamp of an `updateMotionTracking` call:
`frameNumber ?? ++lastFrameTimestamp`. -/

def effectiveTimestamp (st : TrackerState) (frameNumber : Option ℚ) : ℚ :=
  match frameNumber with
  | some t => t
  | none => st.lastFrameTimestamp + 1

/-- Every track of the list holds between 1 and `MAX_HISTORY_LENGTH`
positions. -/

def BoundedHistories (hist : List ObjectHistory) : Prop :=
  ∀ h ∈ hist, 1 ≤ h.positions.length ∧ h.positions.length ≤ MAX_HISTORY_LENGTH


/-- A fixed detection used by the concrete scenarios. -/

def demoDet : DetectedObject := ⟨"person", ⟨0, 0, 10, 10⟩⟩

/-- State after one counter-driven `update([demoDet])` from the initial state. -/

def demoS1 : TrackerState :=
  ⟨[⟨[⟨0, 0, 1⟩], "person", 1, "track-1"⟩], 2, 1⟩

/-- State after two counter-driven updates. -/

def demoS2 : TrackerState :=
  ⟨[⟨[⟨0, 0, 1⟩, ⟨0, 0, 2⟩], "person", 2, "track-1"⟩], 2, 2⟩

/-- State after three counter-driven updates. -/

def demoS3 : TrackerState :=
  ⟨[⟨[⟨0, 0, 1⟩, ⟨0, 0, 2⟩, ⟨0, 0, 3⟩], "person", 3, "track-1"⟩], 2, 3⟩

/-- State after four counter-driven updates. -/

def demoS4 : TrackerState :=
  ⟨[⟨[⟨0, 0, 1⟩, ⟨0, 0, 2⟩, ⟨0, 0, 3⟩, ⟨0, 0, 4⟩], "person", 4, "track-1"⟩], 2, 4⟩

/-- State after a fifth, explicitly timestamped `update([demoDet], 1)`:
the track is matched at effective timestamp 1, the counter stays at 4. -/

def demoS5 : TrackerState :=
  ⟨[⟨[⟨0, 0, 1⟩, ⟨0, 0, 2⟩, ⟨0, 0, 3⟩, ⟨0, 0, 4⟩, ⟨0, 0, 1⟩], "person", 1, "track-1"⟩], 2, 4⟩



















/-! ### Theorems -/

theorem bestMatchStep_eq (d : DetectedObject) (t : ℚ) (acc : ℚ × Option ObjectHistory)
    (h : ObjectHistory) :
    bestMatchStep d t acc h =
      if eligible d t h then
        if candidateIoU d h > acc.1 then (candidateIoU d h, some h) else acc
      else acc := by
  unfold bestMatchStep eligible
  by_cases h1 : h.cls = d.cls <;> by_cases h2 : t - h.lastSeen > MAX_FRAME_GAP <;>
    simp [h1, h2, le_of_not_lt, not_le.mpr, h2]

theorem bestFold_fixed (d : DetectedObject) (t : ℚ) :
    ∀ (l : List ObjectHistory) (b : ℚ) (opt : Option ObjectHistory),
      (∀ h ∈ l, eligible d t h → candidateIoU d h ≤ b) →
      l.foldl (bestMatchStep d t) (b, opt) = (b, opt) := by
  intro l
  induction l with
  | nil => intro b opt _; rfl
  | cons h tl ih =>
    intro b opt hle
    rw [List.foldl_cons, bestMatchStep_eq]
    by_cases he : eligible d t h
    · have : ¬ candidateIoU d h > b := not_lt.mpr (hle h (by simp) he)
      simp only [he, if_true, this, if_false]
      exact ih b opt (fun h' hm => hle h' (by simp [hm]))
    · simp only [he, if_false]
      exact ih b opt (fun h' hm => hle h' (by simp [hm]))

theorem bestFold_some_stays (d : DetectedObject) (t : ℚ) :
    ∀ (l : List ObjectHistory) (c : ℚ) (m0 : ObjectHistory),
      ∃ m, (l.foldl (bestMatchStep d t) (c, some m0)).2 = some m := by
  intro l
  induction l with
  | nil => intro c m0; exact ⟨m0, rfl⟩
  | cons h tl ih =>
    intro c m0
    rw [List.foldl_cons, bestMatchStep_eq]
    by_cases he : eligible d t h
    · by_cases hio : candidateIoU d h > c
      · simp only [he, if_true, hio]
        exact ih _ _
      · simp only [he, if_true, hio, if_false]
        exact ih _ _
    · simp only [he, if_false]
      exact ih _ _

theorem cons_decomp {α} (a : α) (tl : List α) (m : α) (Q : List α → List α → Prop) :
    (∃ l1 l2, a :: tl = l1 ++ m :: l2 ∧ Q l1 l2) ↔
      (m = a ∧ Q [] tl) ∨ (∃ l1 l2, tl = l1 ++ m :: l2 ∧ Q (a :: l1) l2) := by
  constructor
  · rintro ⟨l1, l2, heq, hQ⟩
    cases l1 with
    | nil =>
      simp only [List.nil_append, List.cons.injEq] at heq
      exact Or.inl ⟨heq.1.symm, by rw [heq.2]; exact hQ⟩
    | cons x l1' =>
      simp only [List.cons_append, List.cons.injEq] at heq
      exact Or.inr ⟨l1', l2, heq.2, by rw [heq.1]; exact hQ⟩
  · rintro (⟨rfl, hQ⟩ | ⟨l1, l2, heq, hQ⟩)
    · exact ⟨[], tl, rfl, hQ⟩
    · exact ⟨a :: l1, l2, by rw [heq]; rfl, hQ⟩

/-- Full characterization of the matching fold: the final best-match is `some m`
exactly when either the initial champion survives untouched, or `m` occupies a
position in the candidate list from which it beats the running best (every
earlier eligible candidate scores strictly below it, every later one at most
it). -/
theorem bestFold_some_iff (d : DetectedObject) (t : ℚ) :
    ∀ (l : List ObjectHistory) (b : ℚ) (opt : Option ObjectHistory) (m : ObjectHistory),
    (l.foldl (bestMatchStep d t) (b, opt)).2 = some m ↔
      (opt = some m ∧ ∀ h ∈ l, eligible d t h → candidateIoU d h ≤ b) ∨
      (∃ l1 l2, l = l1 ++ m :: l2 ∧ eligible d t m ∧ candidateIoU d m > b ∧
        (∀ h ∈ l1, eligible d t h → candidateIoU d h < candidateIoU d m) ∧
        (∀ h ∈ l2, eligible d t h → candidateIoU d h ≤ candidateIoU d m)) := by
  intro l
  induction l with
  | nil =>
    intro b opt m
    constructor
    · intro hsome
      exact Or.inl ⟨hsome, by simp⟩
    · rintro (⟨h1, _⟩ | ⟨l1, l2, heq, _⟩)
      · exact h1
      · exact absurd heq (by simp)
  | cons h tl ih =>
    intro b opt m
    rw [List.foldl_cons, bestMatchStep_eq]
    by_cases he : eligible d t h
    · by_cases hio : candidateIoU d h > b
      · simp only [he, hio, if_true]
        rw [ih]
        constructor
        · rintro (⟨hsome, hle⟩ | ⟨l1, l2, heq, helig, hgt, hl1, hl2⟩)
          · obtain rfl : h = m := Option.some.inj hsome
            exact Or.inr ⟨[], tl, by simp, he, hio, by simp, hle⟩
          · refine Or.inr ⟨h :: l1, l2, by rw [heq]; rfl, helig, lt_trans hio hgt, ?_, hl2⟩
            intro x hx hex
            rcases List.mem_cons.mp hx with hxh | hxl
            · rw [hxh]; exact hgt
            · exact hl1 x hxl hex
        · rintro (⟨hopt, hle⟩ | hex)
          · exact absurd (hle h (by simp) he) (not_le.mpr hio)
          · rcases (cons_decomp h tl m
              (fun l1 l2 => eligible d t m ∧ candidateIoU d m > b ∧
                (∀ x ∈ l1, eligible d t x → candidateIoU d x < candidateIoU d m) ∧
                (∀ x ∈ l2, eligible d t x → candidateIoU d x ≤ candidateIoU d m))).mp hex with
              ⟨hm, helig, hgt, _, hl2⟩ | ⟨l1, l2, heq, helig, hgt, hcons, hl2⟩
            · subst hm
              exact Or.inl ⟨rfl, hl2⟩
            · exact Or.inr ⟨l1, l2, heq, helig, hcons h (by simp) he,
                fun x hx hex => hcons x (List.mem_cons_of_mem h hx) hex, hl2⟩
      · have hle' : candidateIoU d h ≤ b := not_lt.mp hio
        simp only [he, hio, if_true, if_false]
        rw [ih]
        constructor
        · rintro (⟨hopt, hle⟩ | ⟨l1, l2, heq, helig, hgt, hl1, hl2⟩)
          · refine Or.inl ⟨hopt, ?_⟩
            intro x hx hex
            rcases List.mem_cons.mp hx with hxh | hxl
            · rw [hxh]; exact hle'
            · exact hle x hxl hex
          · refine Or.inr ⟨h :: l1, l2, by rw [heq]; rfl, helig, hgt, ?_, hl2⟩
            intro x hx hex
            rcases List.mem_cons.mp hx with hxh | hxl
            · rw [hxh]; exact lt_of_le_of_lt hle' hgt
            · exact hl1 x hxl hex
        · rintro (⟨hopt, hle⟩ | hex)
          · exact Or.inl ⟨hopt, fun x hx hex => hle x (List.mem_cons_of_mem h hx) hex⟩
          · rcases (cons_decomp h tl m
              (fun l1 l2 => eligible d t m ∧ candidateIoU d m > b ∧
                (∀ x ∈ l1, eligible d t x → candidateIoU d x < candidateIoU d m) ∧
                (∀ x ∈ l2, eligible d t x → candidateIoU d x ≤ candidateIoU d m))).mp hex with
              ⟨hm, helig, hgt, _, hl2⟩ | ⟨l1, l2, heq, helig, hgt, hcons, hl2⟩
            · subst hm
              exact absurd hgt hio
            · exact Or.inr ⟨l1, l2, heq, helig, hgt,
                fun x hx hex => hcons x (List.mem_cons_of_mem h hx) hex, hl2⟩
    · simp only [he, if_false]
      rw [ih]
      constructor
      · rintro (⟨hopt, hle⟩ | ⟨l1, l2, heq, helig, hgt, hl1, hl2⟩)
        · refine Or.inl ⟨hopt, ?_⟩
          intro x hx hex
          rcases List.mem_cons.mp hx with hxh | hxl
          · rw [hxh] at hex; exact absurd hex he
          · exact hle x hxl hex
        · refine Or.inr ⟨h :: l1, l2, by rw [heq]; rfl, helig, hgt, ?_, hl2⟩
          intro x hx hex
          rcases List.mem_cons.mp hx with hxh | hxl
          · rw [hxh] at hex; exact absurd hex he
          · exact hl1 x hxl hex
      · rintro (⟨hopt, hle⟩ | hex)
        · exact Or.inl ⟨hopt, fun x hx hex => hle x (List.mem_cons_of_mem h hx) hex⟩
        · rcases (cons_decomp h tl m
            (fun l1 l2 => eligible d t m ∧ candidateIoU d m > b ∧
              (∀ x ∈ l1, eligible d t x → candidateIoU d x < candidateIoU d m) ∧
              (∀ x ∈ l2, eligible d t x → candidateIoU d x ≤ candidateIoU d m))).mp hex with
            ⟨hm, helig, _, _, _⟩ | ⟨l1, l2, heq, helig, hgt, hcons, hl2⟩
          · subst hm
            exact absurd helig he
          · exact Or.inr ⟨l1, l2, heq, helig, hgt,
              fun x hx hex => hcons x (List.mem_cons_of_mem h hx) hex, hl2⟩

theorem bestFold_none (d : DetectedObject) (t : ℚ) :
    ∀ (l : List ObjectHistory) (b : ℚ) (opt : Option ObjectHistory),
    (l.foldl (bestMatchStep d t) (b, opt)).2 = none →
    opt = none ∧ ∀ h ∈ l, eligible d t h → candidateIoU d h ≤ b := by
  intro l
  induction l with
  | nil => intro b opt h; exact ⟨h, by simp⟩
  | cons h tl ih =>
    intro b opt hnone
    rw [List.foldl_cons, bestMatchStep_eq] at hnone
    by_cases he : eligible d t h
    · by_cases hio : candidateIoU d h > b
      · simp only [he, hio, if_true] at hnone
        obtain ⟨m, hm⟩ := bestFold_some_stays d t tl (candidateIoU d h) h
        rw [hm] at hnone
        exact absurd hnone (by simp)
      · simp only [he, hio, if_true, if_false] at hnone
        obtain ⟨hopt, hle⟩ := ih b opt hnone
        refine ⟨hopt, fun x hx hex => ?_⟩
        rcases List.mem_cons.mp hx with hxh | hxl
        · rw [hxh]; exact not_lt.mp hio
        · exact hle x hxl hex
    · simp only [he, if_false] at hnone
      obtain ⟨hopt, hle⟩ := ih b opt hnone
      refine ⟨hopt, fun x hx hex => ?_⟩
      rcases List.mem_cons.mp hx with hxh | hxl
      · rw [hxh] at hex; exact absurd hex he
      · exact hle x hxl hex

theorem findBestMatch_some_iff (hist : List ObjectHistory) (d : DetectedObject)
    (t : ℚ) (m : ObjectHistory) :
    findBestMatch hist d t = some m ↔
      ∃ l1 l2, hist = l1 ++ m :: l2 ∧ eligible d t m ∧
        candidateIoU d m > IOU_THRESHOLD ∧
        (∀ h ∈ l1, eligible d t h → candidateIoU d h < candidateIoU d m) ∧
        (∀ h ∈ l2, eligible d t h → candidateIoU d h ≤ candidateIoU d m) := by
  unfold findBestMatch
  rw [bestFold_some_iff]
  simp

theorem findBestMatch_none_iff (hist : List ObjectHistory) (d : DetectedObject) (t : ℚ) :
    findBestMatch hist d t = none ↔
      ∀ h ∈ hist, eligible d t h → candidateIoU d h ≤ IOU_THRESHOLD := by
  constructor
  · intro hnone
    exact (bestFold_none d t hist IOU_THRESHOLD none hnone).2
  · intro hle
    unfold findBestMatch
    rw [bestFold_fixed d t hist IOU_THRESHOLD none hle]

theorem findBestMatch_mem {hist : List ObjectHistory} {d : DetectedObject}
    {t : ℚ} {m : ObjectHistory} (hm : findBestMatch hist d t = some m) : m ∈ hist := by
  obtain ⟨l1, l2, heq, _⟩ := (findBestMatch_some_iff hist d t m).mp hm
  rw [heq]
  exact List.mem_append_right l1 (List.mem_cons_self m l2)

/-- When the overlap test of `calculateIoU` passes, the intersection area is
nonnegative, bounded by the first box's area, and the second box's area is
nonnegative. -/
theorem iou_core_bounds (x1 y1 w1 h1 x2 y2 w2 h2 : ℚ)
    (hx : max (x1 - w1 / 2) (x2 - w2 / 2) ≤ min (x1 + w1 / 2) (x2 + w2 / 2))
    (hy : max (y1 - h1 / 2) (y2 - h2 / 2) ≤ min (y1 + h1 / 2) (y2 + h2 / 2)) :
    0 ≤ (min (x1 + w1 / 2) (x2 + w2 / 2) - max (x1 - w1 / 2) (x2 - w2 / 2)) *
        (min (y1 + h1 / 2) (y2 + h2 / 2) - max (y1 - h1 / 2) (y2 - h2 / 2)) ∧
    (min (x1 + w1 / 2) (x2 + w2 / 2) - max (x1 - w1 / 2) (x2 - w2 / 2)) *
        (min (y1 + h1 / 2) (y2 + h2 / 2) - max (y1 - h1 / 2) (y2 - h2 / 2)) ≤ w1 * h1 ∧
    0 ≤ w2 * h2 := by
  have hxl1 : x1 - w1 / 2 ≤ max (x1 - w1 / 2) (x2 - w2 / 2) := le_max_left _ _
  have hxl2 : x2 - w2 / 2 ≤ max (x1 - w1 / 2) (x2 - w2 / 2) := le_max_right _ _
  have hxr1 : min (x1 + w1 / 2) (x2 + w2 / 2) ≤ x1 + w1 / 2 := min_le_left _ _
  have hxr2 : min (x1 + w1 / 2) (x2 + w2 / 2) ≤ x2 + w2 / 2 := min_le_right _ _
  have hyl1 : y1 - h1 / 2 ≤ max (y1 - h1 / 2) (y2 - h2 / 2) := le_max_left _ _
  have hyl2 : y2 - h2 / 2 ≤ max (y1 - h1 / 2) (y2 - h2 / 2) := le_max_right _ _
  have hyr1 : min (y1 + h1 / 2) (y2 + h2 / 2) ≤ y1 + h1 / 2 := min_le_left _ _
  have hyr2 : min (y1 + h1 / 2) (y2 + h2 / 2) ≤ y2 + h2 / 2 := min_le_right _ _
  have hIx0 : 0 ≤ min (x1 + w1 / 2) (x2 + w2 / 2) - max (x1 - w1 / 2) (x2 - w2 / 2) := by
    linarith
  have hIy0 : 0 ≤ min (y1 + h1 / 2) (y2 + h2 / 2) - max (y1 - h1 / 2) (y2 - h2 / 2) := by
    linarith
  have hIxw : min (x1 + w1 / 2) (x2 + w2 / 2) - max (x1 - w1 / 2) (x2 - w2 / 2) ≤ w1 := by
    linarith
  have hIyh : min (y1 + h1 / 2) (y2 + h2 / 2) - max (y1 - h1 / 2) (y2 - h2 / 2) ≤ h1 := by
    linarith
  have hw2 : 0 ≤ w2 := by linarith
  have hh2 : 0 ≤ h2 := by linarith
  refine ⟨mul_nonneg hIx0 hIy0, ?_, mul_nonneg hw2 hh2⟩
  calc
    (min (x1 + w1 / 2) (x2 + w2 / 2) - max (x1 - w1 / 2) (x2 - w2 / 2)) *
        (min (y1 + h1 / 2) (y2 + h2 / 2) - max (y1 - h1 / 2) (y2 - h2 / 2))
        ≤ w1 * (min (y1 + h1 / 2) (y2 + h2 / 2) - max (y1 - h1 / 2) (y2 - h2 / 2)) :=
      mul_le_mul_of_nonneg_right hIxw hIy0
    _ ≤ w1 * h1 := mul_le_mul_of_nonneg_left hIyh (by linarith)

/-- Result of `calculateIoU` is never negative. -/
theorem calculateIoU_nonneg (b1 b2 : BBox) : 0 ≤ calculateIoU b1 b2 := by
  simp only [calculateIoU]
  split
  · exact le_refl 0
  · rename_i hcond
    push_neg at hcond
    obtain ⟨hx, hy⟩ := hcond
    obtain ⟨hI0, hIA1, hA2⟩ :=
      iou_core_bounds b1.x b1.y b1.width b1.height b2.x b2.y b2.width b2.height hx hy
    exact div_nonneg hI0 (by linarith)

/-- Result of `calculateIoU` on two boxes sharing width and height is `0` as
soon as that shared area is `0` (the zero-area degenerate case of the matching
pass). -/
theorem calculateIoU_zero_area (x1 y1 x2 y2 w h : ℚ) (hwh : w * h = 0) :
    calculateIoU ⟨x1, y1, w, h⟩ ⟨x2, y2, w, h⟩ = 0 := by
  simp only [calculateIoU]
  split
  · rfl
  · rename_i hcond
    push_neg at hcond
    obtain ⟨hx, hy⟩ := hcond
    obtain ⟨hI0, hIA1, _⟩ := iou_core_bounds x1 y1 w h x2 y2 w h hx hy
    have hI : (min (x1 + w / 2) (x2 + w / 2) - max (x1 - w / 2) (x2 - w / 2)) *
        (min (y1 + h / 2) (y2 + h / 2) - max (y1 - h / 2) (y2 - h / 2)) = 0 := by
      rw [hwh] at hIA1
      linarith
    rw [hI, zero_div]

/-- Result of `calculateIoU` of a box with itself is `1` when its sides are
positive. -/
theorem calculateIoU_self (b : BBox) (hw : 0 < b.width) (hh : 0 < b.height) :
    calculateIoU b b = 1 := by
  simp only [calculateIoU, max_self, min_self]
  rw [if_neg (by push_neg; constructor <;> linarith)]
  have hx : b.x + b.width / 2 - (b.x - b.width / 2) = b.width := by ring
  have hy : b.y + b.height / 2 - (b.y - b.height / 2) = b.height := by ring
  rw [hx, hy]
  have hden : b.width * b.height + b.width * b.height - b.width * b.height =
      b.width * b.height := by ring
  rw [hden]
  exact div_self (ne_of_gt (mul_pos hw hh))

theorem getD_last_two (l : List Pos) (p c : Pos) :
    (l ++ [p, c]).getD ((l ++ [p, c]).length - 1) ⟨0, 0, 0⟩ = c ∧
    (l ++ [p, c]).getD ((l ++ [p, c]).length - 2) ⟨0, 0, 0⟩ = p := by
  have hlen : (l ++ [p, c]).length = l.length + 2 := by simp
  constructor
  · rw [hlen, show l.length + 2 - 1 = l.length + 1 from rfl,
      List.getD_append_right l [p, c] _ _ (by omega)]
    simp
  · rw [hlen, show l.length + 2 - 2 = l.length from rfl,
      List.getD_append_right l [p, c] _ _ (by omega)]
    simp

/-- Value of `calculateVelocity` on a history ending in `previous, current`. -/
theorem calculateVelocity_last_two (l : List Pos) (p c : Pos) :
    calculateVelocity (l ++ [p, c]) =
      { x := (c.x - p.x) / (if c.timestamp - p.timestamp = 0 then 1 else c.timestamp - p.timestamp)
        y := (c.y - p.y) / (if c.timestamp - p.timestamp = 0 then 1 else c.timestamp - p.timestamp) } := by
  obtain ⟨h1, h2⟩ := getD_last_two l p c
  simp only [calculateVelocity]
  rw [if_neg (by simp)]
  rw [h1, h2]

/-- Value of the spec-modelled floored velocity on a history ending in
`previous, current`. -/
theorem velocitySpecFloored_last_two (l : List Pos) (p c : Pos) :
    velocitySpecFloored (l ++ [p, c]) =
      { x := (c.x - p.x) / max (c.timestamp - p.timestamp) 1
        y := (c.y - p.y) / max (c.timestamp - p.timestamp) 1 } := by
  obtain ⟨h1, h2⟩ := getD_last_two l p c
  simp only [velocitySpecFloored]
  rw [if_neg (by simp)]
  rw [h1, h2]

theorem foldl_add_shift (f : Pos × Pos → ℝ) :
    ∀ (l : List (Pos × Pos)) (a : ℝ),
    l.foldl (fun acc pq => acc + f pq) a = a + l.foldl (fun acc pq => acc + f pq) 0 := by
  intro l
  induction l with
  | nil => intro a; simp
  | cons x xs ih =>
    intro a
    rw [List.foldl_cons, List.foldl_cons, ih (a + f x), ih (0 + f x)]
    ring

/-- The `for` loop accumulation of `isObjectMoving` equals the spec's sum over
consecutive pairs. -/
theorem totalDisplacement_eq (l : List Pos) : totalDisplacement l = pairwiseDistSum l := by
  induction l with
  | nil => simp [totalDisplacement, pairwiseDistSum]
  | cons p tl ih =>
    cases tl with
    | nil => simp [totalDisplacement, pairwiseDistSum]
    | cons q rest =>
      have hzip : (p :: q :: rest).zip (q :: rest) = (p, q) :: (q :: rest).zip rest := rfl
      simp only [totalDisplacement, List.tail_cons, hzip, List.foldl_cons]
      rw [foldl_add_shift]
      simp only [totalDisplacement, List.tail_cons] at ih
      rw [ih]
      simp only [pairwiseDistSum]
      ring

theorem pushTrim_length_bounds (ps : List Pos) (p : Pos)
    (h1 : 1 ≤ ps.length) (h10 : ps.length ≤ MAX_HISTORY_LENGTH) :
    1 ≤ (pushTrim ps p).length ∧ (pushTrim ps p).length ≤ MAX_HISTORY_LENGTH := by
  simp only [pushTrim, MAX_HISTORY_LENGTH]
  unfold MAX_HISTORY_LENGTH at h10
  split
  · rename_i hgt
    simp only [List.length_tail, List.length_append, List.length_cons,
      List.length_nil] at hgt ⊢
    omega
  · rename_i hle
    simp only [List.length_append, List.length_cons, List.length_nil] at hle ⊢
    omega

theorem cleanup_bounded (hist : List ObjectHistory) (t : ℚ)
    (hg : BoundedHistories hist) : BoundedHistories (cleanupOldTracks hist t) := by
  intro h hmem
  exact hg h (List.mem_of_mem_filter hmem)

theorem processDetections_bounded (t : ℚ) :
    ∀ (ds : List DetectedObject) (hist : List ObjectHistory) (n : ℕ),
    BoundedHistories hist →
    BoundedHistories (processDetections t ds hist n).2.1 ∧
    ∀ o ∈ (processDetections t ds hist n).1,
      1 ≤ o.framesTracked ∧ o.framesTracked ≤ MAX_HISTORY_LENGTH := by
  intro ds
  induction ds with
  | nil =>
    intro hist n hg
    exact ⟨hg, by simp [processDetections]⟩
  | cons d rest ih =>
    intro hist n hg
    cases hfm : findBestMatch hist d t with
    | some m =>
      have hmg := hg m (findBestMatch_mem hfm)
      have habs : 1 ≤ (absorb m d t).positions.length ∧
          (absorb m d t).positions.length ≤ MAX_HISTORY_LENGTH := by
        simp only [absorb]
        exact pushTrim_length_bounds m.positions _ hmg.1 hmg.2
      have hg' : BoundedHistories
          (hist.map fun h => if h.trackingId = m.trackingId then absorb m d t else h) := by
        intro h hmem
        rcases List.mem_map.mp hmem with ⟨h0, h0mem, heq⟩
        by_cases hid : h0.trackingId = m.trackingId
        · rw [← heq, if_pos hid]; exact habs
        · rw [← heq, if_neg hid]; exact hg h0 h0mem
      obtain ⟨ha, hb⟩ := ih _ n hg'
      simp only [processDetections, hfm]
      refine ⟨ha, ?_⟩
      intro o homem
      rcases List.mem_cons.mp homem with rfl | hrest
      · simpa using habs
      · exact hb o hrest
    | none =>
      have hg' : BoundedHistories
          (hist ++ [newTrack d t ("track-" ++ toString n)]) := by
        intro h hmem
        rcases List.mem_append.mp hmem with hl | hr
        · exact hg h hl
        · rw [List.mem_singleton.mp hr]
          simp [newTrack, MAX_HISTORY_LENGTH]
      obtain ⟨ha, hb⟩ := ih _ (n + 1) hg'
      simp only [processDetections, hfm]
      refine ⟨ha, ?_⟩
      intro o homem
      rcases List.mem_cons.mp homem with rfl | hrest
      · simp [MAX_HISTORY_LENGTH]
      · exact hb o hrest

theorem candidateIoU_zero_area (d : DetectedObject) (h : ObjectHistory)
    (hwh : d.bbox.width * d.bbox.height = 0) : candidateIoU d h = 0 := by
  unfold candidateIoU
  cases hl : h.positions.getLast? with
  | none => rfl
  | some lastPos =>
    exact calculateIoU_zero_area d.bbox.x d.bbox.y lastPos.x lastPos.y
      d.bbox.width d.bbox.height hwh

/-- A zero-area detection scores IoU `0` against every candidate (the synthetic
box reuses the detection's width and height), hence never matches. -/
theorem findBestMatch_zero_area (hist : List ObjectHistory) (d : DetectedObject)
    (t : ℚ) (hwh : d.bbox.width * d.bbox.height = 0) :
    findBestMatch hist d t = none := by
  refine (findBestMatch_none_iff hist d t).mpr ?_
  intro h _ _
  rw [candidateIoU_zero_area d h hwh]
  norm_num [IOU_THRESHOLD]

theorem trackId1 : "track-" ++ toString (1 : ℕ) = "track-1" := rfl

/-- First counter-driven update creates `track-1`. -/
theorem demo_step0 : (updateMotionTracking initialState [demoDet] none).2 = demoS1 := by
  norm_num [updateMotionTracking, cleanupOldTracks, processDetections, findBestMatch,
    initialState, demoDet, newTrack, trackId1, demoS1]

/-- Second counter-driven update matches and extends `track-1`. -/
theorem demo_step1 : (updateMotionTracking demoS1 [demoDet] none).2 = demoS2 := by
  norm_num [updateMotionTracking, cleanupOldTracks, processDetections, findBestMatch,
    bestMatchStep, candidateIoU, syntheticBox, calculateIoU, IOU_THRESHOLD, MAX_FRAME_GAP,
    absorb, pushTrim, MAX_HISTORY_LENGTH, demoDet, demoS1, demoS2, List.getLast?]

/-- Third counter-driven update matches and extends `track-1`. -/
theorem demo_step2 : (updateMotionTracking demoS2 [demoDet] none).2 = demoS3 := by
  norm_num [updateMotionTracking, cleanupOldTracks, processDetections, findBestMatch,
    bestMatchStep, candidateIoU, syntheticBox, calculateIoU, IOU_THRESHOLD, MAX_FRAME_GAP,
    absorb, pushTrim, MAX_HISTORY_LENGTH, demoDet, demoS2, demoS3, List.getLast?]

/-- Fourth counter-driven update matches and extends `track-1`. -/
theorem demo_step3 : (updateMotionTracking demoS3 [demoDet] none).2 = demoS4 := by
  norm_num [updateMotionTracking, cleanupOldTracks, processDetections, findBestMatch,
    bestMatchStep, candidateIoU, syntheticBox, calculateIoU, IOU_THRESHOLD, MAX_FRAME_GAP,
    absorb, pushTrim, MAX_HISTORY_LENGTH, demoDet, demoS3, demoS4, List.getLast?]

/-- An explicit `update([demoDet], 1)` from `demoS4` matches the track at
effective timestamp 1 and leaves the counter at 4. -/
theorem demo_explicit : (updateMotionTracking demoS4 [demoDet] (some 1)).2 = demoS5 := by
  norm_num [updateMotionTracking, cleanupOldTracks, processDetections, findBestMatch,
    bestMatchStep, candidateIoU, syntheticBox, calculateIoU, IOU_THRESHOLD, MAX_FRAME_GAP,
    absorb, pushTrim, MAX_HISTORY_LENGTH, demoDet, demoS4, demoS5, List.getLast?]

/-- The next counter-driven update after `demoS5` runs at timestamp 5 and
evicts every track (gap `5 - 1 > 3`). -/
theorem demo_evict : (updateMotionTracking demoS5 [] none).2.objectHistory = [] := by
  norm_num [updateMotionTracking, cleanupOldTracks, processDetections, demoS5, MAX_FRAME_GAP]

/-- C1: the claim says a track matched by one detection becomes unavailable to
every later detection of the same frame.  The code records matched ids in a
`matchedHistoryIds` set but `findBestMatch` never consults it, so the claim
fails: starting from the reachable one-track state `demoS1`, a frame with two
identical detections lets the single track `track-1` absorb both — both output
records carry `trackingId = "track-1"`, the track gains two positions stamped
with the same frame, and no second track is created
(`nextTrackingId` stays 2). -/
theorem C1_double_absorb :
    (updateMotionTracking initialState [demoDet] none).2 = demoS1 ∧
    ((updateMotionTracking demoS1 [demoDet, demoDet] none).1.map
        (fun o => o.trackingId)) = ["track-1", "track-1"] ∧
    (updateMotionTracking demoS1 [demoDet, demoDet] none).2.objectHistory =
      [⟨[⟨0, 0, 1⟩, ⟨0, 0, 2⟩, ⟨0, 0, 2⟩], "person", 2, "track-1"⟩] ∧
    (updateMotionTracking demoS1 [demoDet, demoDet] none).2.nextTrackingId = 2 := by
  refine ⟨demo_step0, ?_, ?_, ?_⟩ <;>
    norm_num [updateMotionTracking, cleanupOldTracks, processDetections, findBestMatch,
      bestMatchStep, candidateIoU, syntheticBox, calculateIoU, IOU_THRESHOLD, MAX_FRAME_GAP,
      absorb, pushTrim, MAX_HISTORY_LENGTH, demoDet, demoS1, List.getLast?]

/-- C2 counterexample: the first `update` of a session assigns `track-1`; after
`reset()` the very next `update` assigns `track-1` again — the identifier
assigned after the reset equals one assigned before it, so it is not
brand-new. -/
theorem C2_reused_id_after_reset :
    ((updateMotionTracking initialState [demoDet] none).1.map
        (fun o => o.trackingId)) = ["track-1"] ∧
    ((updateMotionTracking
        (resetMotionTracking (updateMotionTracking initialState [demoDet] none).2)
        [demoDet] none).1.map (fun o => o.trackingId)) = ["track-1"] := by
  constructor <;>
    norm_num [updateMotionTracking, cleanupOldTracks, processDetections, findBestMatch,
      resetMotionTracking, initialState, trackId1, demoDet]

/-- C2 amended: `reset()` restores the whole state (tracks, identity counter,
timestamp counter) to its initial value, so the next `update()` call assigns
`track-1` — the same identifier as the first track of the previous session.
TrackingIds are fresh within a session, not across resets. -/
theorem C2_reset_restarts_ids :
    (∀ s : TrackerState, resetMotionTracking s = initialState) ∧
    (∀ (s : TrackerState) (d : DetectedObject),
      ((updateMotionTracking (resetMotionTracking s) [d] none).1.map
        (fun o => o.trackingId)) = ["track-1"]) := by
  refine ⟨fun _ => rfl, fun s d => ?_⟩
  norm_num [updateMotionTracking, cleanupOldTracks, processDetections, findBestMatch,
    resetMotionTracking, initialState, trackId1]

/-- C10: a call with an explicit `frameNumber` leaves the internal counter
unchanged; a call without one pre-increments it by exactly 1 and runs at that
value.  Consequently, after four counter-driven frames (timestamps 1–4) and an
explicit call at `T = 1` (which matches the live track at effective
timestamp 1, jumping backwards, and leaves the counter at 4), the next
counter-driven call runs at `4 + 1 = 5`, not at `T + 1 = 2`, and its eviction
pass removes every track (gap `5 - 1 > 3`) although each call was individually
well-formed. -/
theorem C10_timestamp_counter :
    (∀ (s : TrackerState) (ds : List DetectedObject) (T : ℚ),
      (updateMotionTracking s ds (some T)).2.lastFrameTimestamp = s.lastFrameTimestamp) ∧
    (∀ (s : TrackerState) (ds : List DetectedObject),
      (updateMotionTracking s ds none).2.lastFrameTimestamp = s.lastFrameTimestamp + 1) ∧
    (∀ s : TrackerState, effectiveTimestamp s none = s.lastFrameTimestamp + 1) ∧
    (updateMotionTracking initialState [demoDet] none).2 = demoS1 ∧
    (updateMotionTracking demoS1 [demoDet] none).2 = demoS2 ∧
    (updateMotionTracking demoS2 [demoDet] none).2 = demoS3 ∧
    (updateMotionTracking demoS3 [demoDet] none).2 = demoS4 ∧
    demoS4.lastFrameTimestamp = 4 ∧
    (updateMotionTracking demoS4 [demoDet] (some 1)).2 = demoS5 ∧
    demoS5.objectHistory ≠ [] ∧
    demoS5.lastFrameTimestamp = 4 ∧
    effectiveTimestamp demoS5 none = 5 ∧
    (5 : ℚ) ≠ 1 + 1 ∧
    (updateMotionTracking demoS5 [] none).2.objectHistory = [] := by
  refine ⟨fun s ds T => rfl, fun s ds => rfl, fun s => rfl,
    demo_step0, demo_step1, demo_step2, demo_step3, rfl, demo_explicit,
    by simp [demoS5], rfl, ?_, by norm_num, demo_evict⟩
  norm_num [effectiveTimestamp, demoS5]

/-- C4: the eviction pass runs at the start of each `update` on the effective
timestamp, and keeps exactly the tracks with `timestamp - lastSeen ≤ 3`: a
track survives `cleanupOldTracks` iff its staleness gap is at most
`MAX_FRAME_GAP = 3`, and the matching pass starts from the cleaned table. -/
theorem C4_eviction_rule :
    MAX_FRAME_GAP = 3 ∧
    (∀ (hist : List ObjectHistory) (t : ℚ) (h : ObjectHistory),
      h ∈ cleanupOldTracks hist t ↔ h ∈ hist ∧ t - h.lastSeen ≤ MAX_FRAME_GAP) ∧
    (∀ (s : TrackerState) (ds : List DetectedObject) (f : Option ℚ),
      (updateMotionTracking s ds f).2.objectHistory =
        (processDetections (effectiveTimestamp s f) ds
          (cleanupOldTracks s.objectHistory (effectiveTimestamp s f))
          s.nextTrackingId).2.1) ∧
    (∀ (s : TrackerState) (f : Option ℚ),
      (updateMotionTracking s [] f).2.objectHistory =
        cleanupOldTracks s.objectHistory (effectiveTimestamp s f)) := by
  refine ⟨rfl, ?_, ?_, ?_⟩
  · intro hist t h
    simp [cleanupOldTracks, List.mem_filter, not_lt]
  · intro s ds f
    cases f <;> rfl
  · intro s f
    cases f <;> rfl

/-- C8: `update` has no fallible branch.  An empty detection list yields an
empty output for every state and timestamp; a detection whose bbox has zero
area scores IoU 0 against every candidate (the synthetic box reuses its width
and height), never matches, and always becomes a brand-new track. -/
theorem C8_no_fallible_branch :
    (∀ (s : TrackerState) (f : Option ℚ), (updateMotionTracking s [] f).1 = []) ∧
    (∀ d : DetectedObject, d.bbox.width * d.bbox.height = 0 →
      (∀ (hist : List ObjectHistory) (t : ℚ), findBestMatch hist d t = none) ∧
      (∀ (s : TrackerState) (f : Option ℚ),
        (updateMotionTracking s [d] f).1 =
          [{ det := d, isMoving := False, velocity := ⟨0, 0⟩,
             trackingId := "track-" ++ toString s.nextTrackingId,
             framesTracked := 1, lastSeen := effectiveTimestamp s f }] ∧
        (updateMotionTracking s [d] f).2.objectHistory =
          cleanupOldTracks s.objectHistory (effectiveTimestamp s f) ++
            [newTrack d (effectiveTimestamp s f)
              ("track-" ++ toString s.nextTrackingId)])) := by
  refine ⟨fun s f => by cases f <;> rfl, fun d hwh => ⟨fun hist t => ?_, fun s f => ?_⟩⟩
  · exact findBestMatch_zero_area hist d t hwh
  · cases f <;>
      simp [updateMotionTracking, processDetections, effectiveTimestamp,
        findBestMatch_zero_area _ _ _ hwh]

/-- C8 witness: a zero-width detection fed to the initial tracker at explicit
frame 7 creates a fresh track instead of failing. -/
theorem C8_no_fallible_branch_witness :
    (updateMotionTracking initialState [⟨"person", ⟨3, 4, 0, 7⟩⟩] (some 7)).1 =
      [{ det := ⟨"person", ⟨3, 4, 0, 7⟩⟩, isMoving := False, velocity := ⟨0, 0⟩,
         trackingId := "track-" ++ toString (1 : ℕ), framesTracked := 1,
         lastSeen := 7 }] :=
  ((C8_no_fallible_branch.2 ⟨"person", ⟨3, 4, 0, 7⟩⟩ (by norm_num)).2 initialState (some 7)).1

/-- C9: every reachable track table keeps between 1 and 10 positions per track:
the bound holds initially, appending drops the oldest entry first exactly when
10 entries are already present, `update` preserves the bound, and every emitted
`framesTracked` lies in `1..10`. -/
theorem C9_bounded_history :
    BoundedHistories initialState.objectHistory ∧
    (∀ ps : List Pos, ps.length < MAX_HISTORY_LENGTH → ∀ p, pushTrim ps p = ps ++ [p]) ∧
    (∀ ps : List Pos, ps.length = MAX_HISTORY_LENGTH → ∀ p, pushTrim ps p = ps.tail ++ [p]) ∧
    (∀ s : TrackerState, BoundedHistories s.objectHistory →
      ∀ (ds : List DetectedObject) (f : Option ℚ),
        BoundedHistories (updateMotionTracking s ds f).2.objectHistory ∧
        ∀ o ∈ (updateMotionTracking s ds f).1,
          1 ≤ o.framesTracked ∧ o.framesTracked ≤ MAX_HISTORY_LENGTH) := by
  refine ⟨fun h hm => by simp [initialState] at hm, ?_, ?_, ?_⟩
  · intro ps hlen p
    simp only [MAX_HISTORY_LENGTH] at hlen
    simp only [pushTrim, MAX_HISTORY_LENGTH, List.length_append, List.length_cons,
      List.length_nil]
    rw [if_neg (by omega)]
  · intro ps hlen p
    simp only [MAX_HISTORY_LENGTH] at hlen
    simp only [pushTrim, MAX_HISTORY_LENGTH, List.length_append, List.length_cons,
      List.length_nil]
    rw [if_pos (by omega)]
    cases ps with
    | nil => simp at hlen
    | cons a t => rfl
  · intro s hs ds f
    have hb := processDetections_bounded (effectiveTimestamp s f) ds
      (cleanupOldTracks s.objectHistory (effectiveTimestamp s f)) s.nextTrackingId
      (cleanup_bounded _ _ hs)
    have h2 : (updateMotionTracking s ds f).2.objectHistory =
        (processDetections (effectiveTimestamp s f) ds
          (cleanupOldTracks s.objectHistory (effectiveTimestamp s f))
          s.nextTrackingId).2.1 := by
      cases f <;> rfl
    have h1 : (updateMotionTracking s ds f).1 =
        (processDetections (effectiveTimestamp s f) ds
          (cleanupOldTracks s.objectHistory (effectiveTimestamp s f))
          s.nextTrackingId).1 := by
      cases f <;> rfl
    constructor
    · rw [h2]; exact hb.1
    · intro o ho
      rw [h1] at ho
      exact hb.2 o ho

/-- C9 witness: the bound holds after one `update` from the (trivially bounded)
initial state. -/
theorem C9_bounded_history_witness :
    BoundedHistories (updateMotionTracking initialState [demoDet] none).2.objectHistory :=
  (C9_bounded_history.2.2.2 initialState
    (fun h hm => by simp [initialState] at hm) [demoDet] none).1

/-- C3: a match is chosen among live tracks of equal class seen within 3
frame-units, scoring each by the IoU of the detection's bbox against a
synthetic box at the track's last position with the detection's width/height;
the winner is the candidate with the highest IoU strictly above
`IOU_THRESHOLD = 0.3`, ties resolved in favor of the earliest candidate in
insertion order; a class mismatch never matches, whatever the IoU. -/
theorem C3_matching_rule :
    IOU_THRESHOLD = 3 / 10 ∧ MAX_FRAME_GAP = 3 ∧
    (∀ (d : DetectedObject) (h : ObjectHistory) (lastPos : Pos),
      h.positions.getLast? = some lastPos →
      candidateIoU d h = calculateIoU d.bbox
        ⟨lastPos.x, lastPos.y, d.bbox.width, d.bbox.height⟩) ∧
    (∀ (hist : List ObjectHistory) (d : DetectedObject) (t : ℚ) (m : ObjectHistory),
      findBestMatch hist d t = some m ↔
        ∃ l1 l2, hist = l1 ++ m :: l2 ∧
          (m.cls = d.cls ∧ t - m.lastSeen ≤ MAX_FRAME_GAP) ∧
          candidateIoU d m > IOU_THRESHOLD ∧
          (∀ h ∈ l1, h.cls = d.cls → t - h.lastSeen ≤ MAX_FRAME_GAP →
            candidateIoU d h < candidateIoU d m) ∧
          (∀ h ∈ l2, h.cls = d.cls → t - h.lastSeen ≤ MAX_FRAME_GAP →
            candidateIoU d h ≤ candidateIoU d m)) ∧
    (∀ (hist : List ObjectHistory) (d : DetectedObject) (t : ℚ) (m : ObjectHistory),
      m.cls ≠ d.cls → findBestMatch hist d t ≠ some m) := by
  refine ⟨rfl, rfl, ?_, ?_, ?_⟩
  · intro d h lastPos hl
    unfold candidateIoU
    rw [hl]
    rfl
  · intro hist d t m
    rw [findBestMatch_some_iff]
    constructor
    · rintro ⟨l1, l2, heq, helig, hgt, hl1, hl2⟩
      exact ⟨l1, l2, heq, helig, hgt, fun h hm h1 h2 => hl1 h hm ⟨h1, h2⟩,
        fun h hm h1 h2 => hl2 h hm ⟨h1, h2⟩⟩
    · rintro ⟨l1, l2, heq, helig, hgt, hl1, hl2⟩
      exact ⟨l1, l2, heq, helig, hgt, fun h hm he => hl1 h hm he.1 he.2,
        fun h hm he => hl2 h hm he.1 he.2⟩
  · intro hist d t m hne hsome
    obtain ⟨l1, l2, _, helig, _⟩ := (findBestMatch_some_iff hist d t m).mp hsome
    exact hne helig.1

/-- C3 witness: a `"car"` detection perfectly overlapping a `"person"` track
still does not match it, and the candidate score is the IoU against the
synthetic box. -/
theorem C3_matching_rule_witness :
    findBestMatch [⟨[⟨0, 0, 1⟩], "person", 1, "track-1"⟩] ⟨"car", ⟨0, 0, 10, 10⟩⟩ 1 ≠
      some ⟨[⟨0, 0, 1⟩], "person", 1, "track-1"⟩ ∧
    candidateIoU demoDet ⟨[⟨0, 0, 1⟩], "person", 1, "track-1"⟩ =
      calculateIoU demoDet.bbox ⟨0, 0, demoDet.bbox.width, demoDet.bbox.height⟩ :=
  ⟨C3_matching_rule.2.2.2.2 _ _ _ _ (by decide),
   C3_matching_rule.2.2.1 demoDet ⟨[⟨0, 0, 1⟩], "person", 1, "track-1"⟩ ⟨0, 0, 1⟩ (by simp)⟩

/-- C5 counterexample: a track whose last step goes backwards in time
(`Δtimestamp = -1`, reachable via an explicit smaller `frameNumber`) divides by
`-1` rather than by the spec's floored divisor `max Δt 1 = 1`: the code yields
`{-10, -5}` where the floored formula yields `{10, 5}`. -/
theorem C5_negative_gap_not_floored :
    calculateVelocity [⟨0, 0, 5⟩, ⟨10, 5, 4⟩] = ⟨-10, -5⟩ ∧
    velocitySpecFloored [⟨0, 0, 5⟩, ⟨10, 5, 4⟩] = ⟨10, 5⟩ ∧
    calculateVelocity [⟨0, 0, 5⟩, ⟨10, 5, 4⟩] ≠ velocitySpecFloored [⟨0, 0, 5⟩, ⟨10, 5, 4⟩] := by
  have h1 : calculateVelocity [⟨0, 0, 5⟩, ⟨10, 5, 4⟩] = ⟨-10, -5⟩ := by
    have h := calculateVelocity_last_two [] ⟨0, 0, 5⟩ ⟨10, 5, 4⟩
    simp only [List.nil_append] at h
    rw [h]
    norm_num
  have h2 : velocitySpecFloored [⟨0, 0, 5⟩, ⟨10, 5, 4⟩] = ⟨10, 5⟩ := by
    have h := velocitySpecFloored_last_two [] ⟨0, 0, 5⟩ ⟨10, 5, 4⟩
    simp only [List.nil_append] at h
    rw [h]
    norm_num [max_def]
  refine ⟨h1, h2, ?_⟩
  rw [h1, h2]
  intro hcon
  have hx := congrArg Vec2.x hcon
  norm_num at hx

/-- C5 amended: histories with fewer than 2 positions get velocity `{0, 0}`;
otherwise velocity is `Δposition` over the last two entries divided by
`Δtimestamp`, where only a `Δtimestamp` of exactly `0` is replaced by `1`
(JavaScript `|| 1`); a negative `Δtimestamp` is used as-is rather than floored.
When `Δtimestamp` is `0` or at least `1` — in particular for integer
frame counters moving forward — this agrees with the spec's floored formula,
and `(0,0,t=0), (10,5,t=1)` yields `{10, 5}`. -/
theorem C5_velocity_amended :
    (∀ ps : List Pos, ps.length < 2 → calculateVelocity ps = ⟨0, 0⟩) ∧
    (∀ (l : List Pos) (p c : Pos),
      calculateVelocity (l ++ [p, c]) =
        ⟨(c.x - p.x) / (if c.timestamp - p.timestamp = 0 then 1 else c.timestamp - p.timestamp),
         (c.y - p.y) / (if c.timestamp - p.timestamp = 0 then 1 else c.timestamp - p.timestamp)⟩) ∧
    (∀ (l : List Pos) (p c : Pos),
      c.timestamp - p.timestamp = 0 ∨ 1 ≤ c.timestamp - p.timestamp →
      calculateVelocity (l ++ [p, c]) = velocitySpecFloored (l ++ [p, c])) ∧
    calculateVelocity [⟨0, 0, 0⟩, ⟨10, 5, 1⟩] = ⟨10, 5⟩ := by
  refine ⟨?_, calculateVelocity_last_two, ?_, ?_⟩
  · intro ps hlen
    simp only [calculateVelocity]
    rw [if_pos hlen]
  · intro l p c hd
    rw [calculateVelocity_last_two, velocitySpecFloored_last_two]
    rcases hd with h0 | h1
    · rw [h0]
      norm_num [max_def]
    · have hne : c.timestamp - p.timestamp ≠ 0 := by
        intro h
        rw [h] at h1
        norm_num at h1
      rw [if_neg hne, max_eq_left h1]
  · have h := calculateVelocity_last_two [] ⟨0, 0, 0⟩ ⟨10, 5, 1⟩
    simp only [List.nil_append] at h
    rw [h]
    norm_num

/-- C5 amended witness: the empty history and the spec's own example, where the
code and the floored formula agree. -/
theorem C5_velocity_amended_witness :
    calculateVelocity [] = (⟨0, 0⟩ : Vec2) ∧
    calculateVelocity [⟨0, 0, 0⟩, ⟨10, 5, 1⟩] = velocitySpecFloored [⟨0, 0, 0⟩, ⟨10, 5, 1⟩] :=
  ⟨C5_velocity_amended.1 [] (by simp),
   C5_velocity_amended.2.2.1 [] ⟨0, 0, 0⟩ ⟨10, 5, 1⟩ (Or.inr (by norm_num))⟩

/-- C7: `calculateIoU` is never negative, returns exactly 0 when the boxes fail
to overlap on either axis, returns exactly 1 on two identical positive-side
boxes, and on the spec's concrete examples: identical boxes give 1, disjoint
boxes give 0, and two unit boxes overlapping by half a width (full overlap on
the other axis) give 1/3. -/
theorem C7_iou_correct :
    (∀ b1 b2 : BBox, 0 ≤ calculateIoU b1 b2) ∧
    (∀ b1 b2 : BBox,
      (min (b1.x + b1.width / 2) (b2.x + b2.width / 2) <
          max (b1.x - b1.width / 2) (b2.x - b2.width / 2) ∨
        min (b1.y + b1.height / 2) (b2.y + b2.height / 2) <
          max (b1.y - b1.height / 2) (b2.y - b2.height / 2)) →
      calculateIoU b1 b2 = 0) ∧
    (∀ b : BBox, 0 < b.width → 0 < b.height → calculateIoU b b = 1) ∧
    calculateIoU ⟨0, 0, 2, 2⟩ ⟨0, 0, 2, 2⟩ = 1 ∧
    calculateIoU ⟨0, 0, 1, 1⟩ ⟨5, 5, 1, 1⟩ = 0 ∧
    calculateIoU ⟨0, 0, 1, 1⟩ ⟨1 / 2, 0, 1, 1⟩ = 1 / 3 := by
  refine ⟨calculateIoU_nonneg, ?_, calculateIoU_self, ?_, ?_, ?_⟩
  · intro b1 b2 hcond
    simp only [calculateIoU]
    rw [if_pos hcond]
  · norm_num [calculateIoU]
  · norm_num [calculateIoU]
  · norm_num [calculateIoU]

/-- C7 witness: a concrete disjoint pair hits the zero branch, and a concrete
box with positive sides has IoU 1 with itself. -/
theorem C7_iou_correct_witness :
    calculateIoU ⟨0, 0, 1, 1⟩ ⟨9, 0, 1, 1⟩ = 0 ∧
    calculateIoU ⟨1, 1, 4, 6⟩ ⟨1, 1, 4, 6⟩ = 1 :=
  ⟨C7_iou_correct.2.1 ⟨0, 0, 1, 1⟩ ⟨9, 0, 1, 1⟩ (Or.inl (by norm_num [min_def, max_def])),
   C7_iou_correct.2.2.1 ⟨1, 1, 4, 6⟩ (by norm_num) (by norm_num)⟩

/-- C6: `isObjectMoving` is false below 3 stored positions; with 3 or more it
holds exactly when the sum of Euclidean distances between consecutive pairs of
the most recent 5 positions, divided by the number of consecutive pairs,
strictly exceeds `MOVEMENT_THRESHOLD = 5`; three stationary positions are not
moving, three positions advancing 10 units per step are. -/
theorem C6_isMoving_rule :
    MOVEMENT_THRESHOLD = 5 ∧
    (∀ ps : List Pos, ps.length < 3 → ¬ isObjectMoving ps) ∧
    (∀ ps : List Pos, 3 ≤ ps.length →
      (isObjectMoving ps ↔
        pairwiseDistSum (lastN 5 ps) / (((lastN 5 ps).length - 1 : ℕ) : ℝ) > 5)) ∧
    ¬ isObjectMoving [⟨0, 0, 0⟩, ⟨0, 0, 1⟩, ⟨0, 0, 2⟩] ∧
    isObjectMoving [⟨0, 0, 0⟩, ⟨10, 0, 1⟩, ⟨20, 0, 2⟩] := by
  refine ⟨rfl, ?_, ?_, ?_, ?_⟩
  · intro ps hlen hmov
    simp only [isObjectMoving] at hmov
    rw [if_pos hlen] at hmov
    exact hmov
  · intro ps hlen
    have hlen1 : 1 ≤ (lastN 5 ps).length := by
      simp only [lastN, List.length_drop]
      omega
    have hc : ((MOVEMENT_THRESHOLD : ℚ) : ℝ) = 5 := by
      norm_num [MOVEMENT_THRESHOLD]
    simp only [isObjectMoving]
    rw [if_neg (by omega), hc, totalDisplacement_eq, Nat.cast_sub hlen1, Nat.cast_one]
  · norm_num [isObjectMoving, lastN, totalDisplacement, MOVEMENT_THRESHOLD]
  · have h100 : Real.sqrt (100 : ℝ) = 10 := by
      rw [show (100 : ℝ) = (10 : ℝ) ^ 2 by norm_num, Real.sqrt_sq (by norm_num : (0:ℝ) ≤ 10)]
    norm_num [isObjectMoving, lastN, totalDisplacement, MOVEMENT_THRESHOLD, h100]

/-- C6 witness: a two-position history is classified as not moving, and the
3-position stationary history instantiates the average-displacement
characterization. -/
theorem C6_isMoving_rule_witness :
    ¬ isObjectMoving [⟨0, 0, 0⟩, ⟨0, 0, 1⟩] ∧
    (isObjectMoving [⟨0, 0, 0⟩, ⟨0, 0, 1⟩, ⟨0, 0, 2⟩] ↔
      pairwiseDistSum (lastN 5 ([⟨0, 0, 0⟩, ⟨0, 0, 1⟩, ⟨0, 0, 2⟩] : List Pos)) /
        (((lastN 5 ([⟨0, 0, 0⟩, ⟨0, 0, 1⟩, ⟨0, 0, 2⟩] : List Pos)).length - 1 : ℕ) : ℝ) > 5) :=
  ⟨C6_isMoving_rule.2.1 _ (by simp), C6_isMoving_rule.2.2.1 _ (by simp)⟩

end MotionTracking

